import Mathlib

/-!
Shallow embedding of `src/lambda_handler.py` (the transactions processor)
and proofs about it.

Modelling conventions:

* CSV rows reach the aggregation code as parsed records (`TransactionRecord`):
  `float(record[2])` is the `amount` field and
  `datetime.strptime(record[1], "%Y-%m-%d %H:%M:%S")` the `timestamp`
  field.  CSV tokenization and `float`/`strptime` parsing are library
  boundaries outside the embedded core.
* Python `float` arithmetic is modelled with exact rationals; `round(x, 2)`
  is `round2` (round half to even at two decimal places, as Python rounds).
* Python dicts are insertion-ordered association lists (`Dict`): updating
  an existing key keeps its position, a new key is appended at the end,
  matching CPython (3.7 and later) dict semantics.
* External effects (the SQLAlchemy engine and the SQS client) are modelled
  by an explicit durable state `DB`, boolean fault-injection flags
  (`DBEnv`) for the places where the library calls can raise, and an
  attempt-indexed oracle for the messaging endpoint.
-/

namespace TxProc

/-- Round half to even to an integer, as Python `round` does. -/
def roundHalfEven (q : ℚ) : ℤ :=
  if q - ⌊q⌋ = 1 / 2 then (if ⌊q⌋ % 2 = 0 then ⌊q⌋ else ⌊q⌋ + 1) else round q

/-- Python `round(x, 2)`: round to two decimal places, ties to even. -/
def round2 (q : ℚ) : ℚ := (roundHalfEven (q * 100) : ℚ) / 100

/-- Python `statistics.mean` on a list of numbers. -/
def mean (l : List ℚ) : ℚ := l.sum / l.length

/-- Result of `datetime.strptime(s, "%Y-%m-%d %H:%M:%S")`. -/
structure Datetime where
  year : Nat
  month : Nat
  day : Nat
  hour : Nat
  minute : Nat
  second : Nat
deriving DecidableEq

/-- A parsed CSV data row: `record[0]` (never used by the code),
`record[1]` parsed as a timestamp, `record[2]` parsed as a float,
`record[3]` the transaction id. -/
structure TransactionRecord where
  accountNumber : String
  timestamp : Datetime
  amount : ℚ
  transactionId : String
deriving DecidableEq

/-! ### Insertion-ordered dictionaries (CPython dicts) -/

/-- A Python dict as an insertion-ordered association list. -/
abbrev Dict (α β : Type) := List (α × β)

variable {α β γ : Type} [DecidableEq α]

/-- Python `d[k]` lookup (as an `Option`). -/
def dget : Dict α β → α → Option β
  | [], _ => none
  | e :: es, k => if e.1 = k then some e.2 else dget es k

/-- Python `k in d`. -/
def dcontains (d : Dict α β) (k : α) : Bool := (dget d k).isSome

/-- Python `d[k] = v`: replace in place when the key exists, append at the
end otherwise. -/
def dset : Dict α β → α → β → Dict α β
  | [], k, v => [(k, v)]
  | e :: es, k, v => if e.1 = k then (k, v) :: es else e :: dset es k v

/-- The keys of a dict, in insertion order (Python iteration order). -/
def keys (d : Dict α β) : List α := d.map Prod.fst

/-! ### The aggregation engine, transcribed from the source -/

/-- `get_total_balance` from the source: the plain sum of the amounts,
`0.0` when the list is empty.  The source performs no rounding here. -/
def get_total_balance (data : List TransactionRecord) : ℚ :=
  if data.length < 1 then 0 else (data.map TransactionRecord.amount).sum

/-- `get_avg_amount_by_type` from the source.  The source guard is
`type is None or not ["debit", "credit"]`; the second disjunct is the
truthiness of a non-empty literal list and is always `False`. -/
def get_avg_amount_by_type (data : List TransactionRecord) (ty : Option String) : ℚ :=
  if ty.isNone || false then 0
  else
    let debit_operations := (data.map TransactionRecord.amount).filter (fun a => decide (a < 0))
    if ty = some "debit" ∧ 0 < debit_operations.length then round2 (mean debit_operations)
    else
      let credit_operations := (data.map TransactionRecord.amount).filter (fun a => decide (0 < a))
      if ty = some "credit" ∧ 0 < credit_operations.length then round2 (mean credit_operations)
      else 0

/-- One pass of the first loop of `get_monthly_transactions`: file one
record into `grouped_dates` under `(year, month)` from its timestamp. -/
def addRecord (g : Dict Nat (Dict Nat (List TransactionRecord)))
    (record : TransactionRecord) : Dict Nat (Dict Nat (List TransactionRecord)) :=
  let year := record.timestamp.year
  let month := record.timestamp.month
  let g' := if dcontains g year then g else dset g year []
  let months := (dget g' year).getD []
  let months' := if dcontains months month then months else dset months month []
  let recs := (dget months' month).getD []
  -- the source appends the record under both branches of `float(record[2]) < 0`
  let recs' := if record.amount < 0 then recs ++ [record] else recs ++ [record]
  dset g' year (dset months' month recs')

/-- The `grouped_dates` dictionary built by the first loop of
`get_monthly_transactions`. -/
def grouped_dates (data : List TransactionRecord) :
    Dict Nat (Dict Nat (List TransactionRecord)) :=
  data.foldl addRecord []

/-- The per-month statistics record of the report. -/
structure MonthStats where
  month_transactions_count : Nat
  debit_transactions_count : Nat
  debit_transaction_month_avg : ℚ
  credit_transactions_count : Nat
  credit_transaction_month_avg : ℚ
deriving DecidableEq

/-- The statistics value stored at `[year][month]` by the second loop of
`get_monthly_transactions`. -/
def mkMonthStats (recs : List TransactionRecord) : MonthStats :=
  { month_transactions_count := recs.length
    debit_transactions_count := (recs.filter (fun r => decide (r.amount < 0))).length
    debit_transaction_month_avg := get_avg_amount_by_type recs (some "debit")
    credit_transactions_count := (recs.filter (fun r => decide (0 < r.amount))).length
    credit_transaction_month_avg := get_avg_amount_by_type recs (some "credit") }

/-- One pass of the second loop of `get_monthly_transactions`.  The source
first stores an empty placeholder dict at `[year][month]` and immediately
overwrites it with the stats record; the placeholder is never observable,
so the two writes are modelled as the single final `dset`. -/
def statsStep (year : Nat) (mt : Dict Nat (Dict Nat MonthStats))
    (entry : Nat × List TransactionRecord) : Dict Nat (Dict Nat MonthStats) :=
  let mt' := if dcontains mt year then mt else dset mt year []
  let ym := (dget mt' year).getD []
  dset mt' year (dset ym entry.1 (mkMonthStats entry.2))

/-- `get_monthly_transactions` from the source: group the records by year
and month (in insertion order), then rebuild the nested mapping with the
per-month statistics. -/
def get_monthly_transactions (data : List TransactionRecord) :
    Dict Nat (Dict Nat MonthStats) :=
  (grouped_dates data).foldl (fun mt e => e.2.foldl (statsStep e.1) mt) []

/-- The value of a Python `account_report`: either the empty dict `{}`
returned for a `None` account number, or the populated report dict. -/
inductive AccountReport where
  | empty
  | report (account_number : String) (total_balance : ℚ)
      (average_debit_amount : ℚ) (average_credit_amount : ℚ)
      (monthly_transactions : Dict Nat (Dict Nat MonthStats))
deriving DecidableEq

/-- `get_account_report` from the source. -/
def get_account_report (data : List TransactionRecord)
    (account_number : Option String) : AccountReport :=
  match account_number with
  | none => .empty
  | some acct =>
      .report acct (get_total_balance data)
        (get_avg_amount_by_type data (some "debit"))
        (get_avg_amount_by_type data (some "credit"))
        (get_monthly_transactions data)

/-- `get_account_number` from the source: split the object key on `_`
(Python `key.split("_")`, modelled on the character list); with exactly
three parts the account number is the first part, otherwise `None`. -/
def get_account_number (key : String) : Option String :=
  match key.data.splitOn '_' with
  | [a, _, _] => some (String.mk a)
  | _ => none

/-! ### Header detection -/

/-- A Python runtime value, as far as `isinstance` checks care. -/
inductive PyVal where
  | str (s : String)
  | int (n : ℤ)
  | float (q : ℚ)
deriving DecidableEq

/-- Python `isinstance(value, str)`. -/
def isinstance_str : PyVal → Bool
  | .str _ => true
  | _ => false

/-- `looks_like_headers` from the source:
`all(isinstance(value, str) for value in first_row)`. -/
def looks_like_headers (first_row : List PyVal) : Bool :=
  first_row.all isinstance_str

/-- Every field produced by `csv.reader` is a Python `str`. -/
def csvCell (s : String) : PyVal := .str s

/-! ### Notification dispatcher -/

/-- `send_message` from the source.  The SQS client is modelled by an
oracle giving, for each attempt number, either the provider-assigned
`MessageId` or `none` when `sqs.send_message` raises.  The second
component is the (ghost) list of attempt numbers at which a send was
attempted, in order. -/
def send_message (oracle : Nat → Option String) (message : String)
    (tries : Nat := 1) (max_tries : Nat := 3) : Option String × List Nat :=
  match oracle tries with
  | some messageId => (some messageId, [tries])
  | none =>
      if h : tries ≤ max_tries then
        let r := send_message oracle message (tries + 1) max_tries
        (r.1, tries :: r.2)
      else
        (none, [tries])
termination_by max_tries + 1 - tries
decreasing_by omega

/-! ### Persistence coordinator -/

/-- A row of the `transactions` table, as inserted by `persist_to_db`. -/
structure TxInsert where
  account_number : Option String
  amount : ℚ
  transaction_id : String
  date : Datetime
deriving DecidableEq

/-- A row of the `reports` table, as inserted by `persist_to_db`.  The
source serializes `monthly_transactions` with `json.dumps`; the blob is
kept structured here. -/
structure ReportInsert where
  account_number : String
  total_balance : ℚ
  average_debit_amount : ℚ
  average_credit_amount : ℚ
  monthly_transactions : Dict Nat (Dict Nat MonthStats)
deriving DecidableEq

/-- The durable database state: the two collections written by
`persist_to_db`. -/
structure DB where
  transactions : List TxInsert
  reports : List ReportInsert
deriving DecidableEq

/-- Fault injection for the external storage layer: where the library
calls made by `persist_to_db` can raise. -/
structure DBEnv where
  /-- `engine.begin()` / connection acquisition raises. -/
  beginFails : Bool
  /-- the `INSERT INTO transactions` execute raises. -/
  txInsertFails : Bool
  /-- the `INSERT INTO reports` execute raises. -/
  reportInsertFails : Bool
  /-- whether committing a transaction that was already rolled back (the
  context-manager exit after the inner `except` handler) raises. -/
  commitInactiveRaises : Bool
deriving DecidableEq

/-- A Python return value of `persist_to_db`: `True`, `False`, or the
implicit `None` of falling off the end of the function. -/
inductive PyRet where
  | pyTrue
  | pyFalse
  | pyNone
deriving DecidableEq

/-- Python truthiness of a `persist_to_db` result. -/
def isTruthy : PyRet → Bool
  | .pyTrue => true
  | _ => false

/-- `persist_to_db` from the source, as a state transformer on the
durable state.  Control flow of the source: everything runs inside
`with engine.begin()`; building `report_to_insert` raises `KeyError` when
`account_report` is the empty dict; the inner `try` executes the two
inserts; its `except Exception` handler rolls the transaction back and
falls through (returning `None` unless the context-manager exit raises,
which the outer handler turns into `False`); the outer `except` returns
`False`.  On every failure path the transaction is rolled back, so the
durable state is unchanged. -/
def persist_to_db (env : DBEnv) (db : DB) (account_number : Option String)
    (transactions : List TransactionRecord) (account_report : AccountReport) :
    PyRet × DB :=
  if env.beginFails then (.pyFalse, db)
  else
    let transactions_to_insert : List TxInsert := transactions.map (fun t =>
      { account_number := account_number
        amount := t.amount
        transaction_id := t.transactionId
        date := t.timestamp })
    match account_report with
    | .empty => (.pyFalse, db)
    | .report acct bal davg cavg monthly =>
        let report_to_insert : ReportInsert :=
          { account_number := acct
            total_balance := bal
            average_debit_amount := davg
            average_credit_amount := cavg
            monthly_transactions := monthly }
        if env.txInsertFails then
          (if env.commitInactiveRaises then .pyFalse else .pyNone, db)
        else if env.reportInsertFails then
          (if env.commitInactiveRaises then .pyFalse else .pyNone, db)
        else
          (.pyTrue,
            { transactions := db.transactions ++ transactions_to_insert
              reports := db.reports ++ [report_to_insert] })

/-! ### The handler -/

/-- Serialization of a number for the notification body. -/
def jsonNum (q : ℚ) : String := toString q.num ++ "/" ++ toString q.den

/-- Serialization of one month's statistics. -/
def jsonMonthStats (s : MonthStats) : String :=
  "\x7b\"month_transactions_count\": " ++ toString s.month_transactions_count ++
  ", \"debit_transactions_count\": " ++ toString s.debit_transactions_count ++
  ", \"debit_transaction_month_avg\": " ++ jsonNum s.debit_transaction_month_avg ++
  ", \"credit_transactions_count\": " ++ toString s.credit_transactions_count ++
  ", \"credit_transaction_month_avg\": " ++ jsonNum s.credit_transaction_month_avg ++
  "\x7d"

/-- Serialization of a string-keyed JSON object from already-serialized
entries. -/
def jsonObj (entries : List String) : String :=
  "\x7b" ++ String.intercalate ", " entries ++ "\x7d"

/-- `json.dumps(account_report)`: the message body sent to the queue.
The body is opaque to the endpoint; only its construction order matters
to the embedded control flow (it does not fail). -/
def json_dumps (r : AccountReport) : String :=
  match r with
  | .empty => "\x7b\x7d"
  | .report acct bal davg cavg monthly =>
      jsonObj
        [ "\"account_number\": \"" ++ acct ++ "\""
        , "\"total_balance\": " ++ jsonNum bal
        , "\"average_debit_amount\": " ++ jsonNum davg
        , "\"average_credit_amount\": " ++ jsonNum cavg
        , "\"monthly_transactions\": " ++
            jsonObj (monthly.map (fun ye =>
              "\"" ++ toString ye.1 ++ "\": " ++
                jsonObj (ye.2.map (fun me =>
                  "\"" ++ toString me.1 ++ "\": " ++ jsonMonthStats me.2)))) ]

/-- An unhandled Python exception escaping `transaction_processor`. -/
inductive PyError where
  | attributeError
  | stopIteration
deriving DecidableEq

/-- The observable I/O steps of one invocation, in order. -/
inductive Effect where
  | persistAttempt
  | sendAttempt
deriving DecidableEq

/-- The outcome of one `transaction_processor` invocation. -/
structure RunResult where
  /-- normal return (`None` in Python — the source has no `return`
  statement on the success path) or an escaping exception. -/
  ret : Except PyError Unit
  /-- the durable state after the invocation. -/
  db : DB
  /-- what `persist_to_db` returned. -/
  persisted : PyRet
  /-- the `MessageId` from `send_message`, when one was obtained. -/
  messageId : Option String
  /-- the I/O steps performed, in order. -/
  effects : List Effect

/-- `transaction_processor` from the source.  `s3ok` models whether the
object bytes could be fetched (on failure the source only logs, leaving
`file = None`, and the subsequent `file.decode` raises `AttributeError`);
`rows` are the parsed CSV rows of the object.  `next(csv_reader)` on an
empty file raises `StopIteration`.  Every row read from CSV consists of
`str` fields, so `looks_like_headers` is `True` for every first row (see
`looks_like_headers_const_true`) and the first row is always skipped.
When `get_account_number` yields `None` the source logs an error and
continues; when persistence fails it prints an error and continues; the
notification is sent unconditionally at the end. -/
def transaction_processor (s3ok : Bool) (rows : List TransactionRecord)
    (key : String) (env : DBEnv) (db : DB) (oracle : Nat → Option String) :
    RunResult :=
  if ¬ s3ok then
    { ret := .error .attributeError, db := db, persisted := .pyNone
      messageId := none, effects := [] }
  else
    match rows with
    | [] =>
        { ret := .error .stopIteration, db := db, persisted := .pyNone
          messageId := none, effects := [] }
    | _first_row :: rest =>
        let data_rows := rest
        let account_number := get_account_number key
        let account_report := get_account_report data_rows account_number
        let pr := persist_to_db env db account_number data_rows account_report
        let message_body := json_dumps account_report
        let message_id := (send_message oracle message_body 1 3).1
        { ret := .ok (), db := pr.2, persisted := pr.1
          messageId := message_id
          effects := [.persistAttempt, .sendAttempt] }

/-! ### Dictionary lemmas -/

omit [DecidableEq α] in
@[simp] theorem keys_nil : keys ([] : Dict α β) = [] := rfl

omit [DecidableEq α] in
@[simp] theorem keys_cons (e : α × β) (es : Dict α β) :
    keys (e :: es) = e.1 :: keys es := rfl

omit [DecidableEq α] in
@[simp] theorem keys_append (d₁ d₂ : Dict α β) :
    keys (d₁ ++ d₂) = keys d₁ ++ keys d₂ := by
  simp [keys]

@[simp] theorem dget_nil (k : α) : dget ([] : Dict α β) k = none := rfl

theorem dget_cons (e : α × β) (es : Dict α β) (k : α) :
    dget (e :: es) k = if e.1 = k then some e.2 else dget es k := rfl

@[simp] theorem dset_nil (k : α) (v : β) : dset ([] : Dict α β) k v = [(k, v)] := rfl

theorem dset_cons (e : α × β) (es : Dict α β) (k : α) (v : β) :
    dset (e :: es) k v = if e.1 = k then (k, v) :: es else e :: dset es k v := rfl

@[simp] theorem dcontains_nil (k : α) : dcontains ([] : Dict α β) k = false := rfl

theorem dcontains_cons (e : α × β) (es : Dict α β) (k : α) :
    dcontains (e :: es) k = if e.1 = k then true else dcontains es k := by
  by_cases he : e.1 = k <;> simp [dcontains, dget_cons, he]

theorem dget_dset_self (d : Dict α β) (k : α) (v : β) :
    dget (dset d k v) k = some v := by
  induction d with
  | nil => simp [dget_cons]
  | cons e es ih =>
    by_cases he : e.1 = k
    · simp [dset_cons, he, dget_cons]
    · simp [dset_cons, he, dget_cons, ih]

theorem dget_dset_ne (d : Dict α β) {k k' : α} (v : β) (h : k' ≠ k) :
    dget (dset d k v) k' = dget d k' := by
  have h' : ¬ k = k' := fun hk => h hk.symm
  induction d with
  | nil => simp [dget_cons, h']
  | cons e es ih =>
    by_cases he : e.1 = k
    · have hek' : ¬ e.1 = k' := fun hc => h' (he ▸ hc)
      simp [dset_cons, he, dget_cons, h', hek']
    · simp only [dset_cons, if_neg he, dget_cons, ih]

theorem dcontains_iff (d : Dict α β) (k : α) :
    dcontains d k = true ↔ k ∈ keys d := by
  induction d with
  | nil => simp
  | cons e es ih =>
    rw [dcontains_cons, keys_cons]
    by_cases he : e.1 = k
    · simp [he]
    · simp only [if_neg he, List.mem_cons, ih]
      constructor
      · exact Or.inr
      · rintro (h | h)
        · exact absurd h.symm he
        · exact h

theorem dget_eq_none (d : Dict α β) (k : α) (h : ¬ dcontains d k = true) :
    dget d k = none := by
  cases hg : dget d k with
  | none => rfl
  | some v => exact absurd (by simp [dcontains, hg]) h

theorem dset_append_of_not_contains (d : Dict α β) (k : α) (v : β)
    (h : dcontains d k = false) : dset d k v = d ++ [(k, v)] := by
  induction d with
  | nil => simp
  | cons e es ih =>
    rw [dcontains_cons] at h
    by_cases he : e.1 = k
    · rw [if_pos he] at h; simp at h
    · rw [if_neg he] at h
      simp [dset_cons, he, ih h]

theorem dget_append_of_none {d₁ : Dict α β} (d₂ : Dict α β) {k : α}
    (h : dget d₁ k = none) : dget (d₁ ++ d₂) k = dget d₂ k := by
  induction d₁ with
  | nil => simp
  | cons e es ih =>
    rw [dget_cons] at h
    by_cases he : e.1 = k
    · rw [if_pos he] at h; simp at h
    · rw [if_neg he] at h
      rw [List.cons_append, dget_cons, if_neg he, ih h]

theorem dget_append_of_some {d₁ : Dict α β} (d₂ : Dict α β) {k : α} {v : β}
    (h : dget d₁ k = some v) : dget (d₁ ++ d₂) k = some v := by
  induction d₁ with
  | nil => simp at h
  | cons e es ih =>
    rw [dget_cons] at h
    by_cases he : e.1 = k
    · rw [if_pos he] at h
      rw [List.cons_append, dget_cons, if_pos he, h]
    · rw [if_neg he] at h
      rw [List.cons_append, dget_cons, if_neg he, ih h]

theorem dcontains_append (d₁ d₂ : Dict α β) (k : α) :
    dcontains (d₁ ++ d₂) k = (dcontains d₁ k || dcontains d₂ k) := by
  cases hg : dget d₁ k with
  | none => simp [dcontains, dget_append_of_none d₂ hg, hg]
  | some v => simp [dcontains, dget_append_of_some d₂ hg, hg]

theorem keys_dset (d : Dict α β) (k : α) (v : β) :
    keys (dset d k v) = if k ∈ keys d then keys d else keys d ++ [k] := by
  induction d with
  | nil => simp
  | cons e es ih =>
    by_cases he : e.1 = k
    · subst he
      simp [dset_cons]
    · have hne : ¬ k = e.1 := fun h' => he h'.symm
      rw [dset_cons, if_neg he, keys_cons, keys_cons, ih]
      by_cases hm : k ∈ keys es
      · simp [hm, hne]
      · simp [hm, hne]

theorem dset_shadow (d₁ d₂ : Dict α β) (k : α) (a v : β)
    (h : dcontains d₁ k = false) :
    dset (d₁ ++ (k, a) :: d₂) k v = d₁ ++ (k, v) :: d₂ := by
  induction d₁ with
  | nil => simp [dset_cons]
  | cons e es ih =>
    rw [dcontains_cons] at h
    by_cases he : e.1 = k
    · rw [if_pos he] at h; simp at h
    · rw [if_neg he] at h
      simp [dset_cons, he, ih h]

theorem dget_of_mem_nodup {d : Dict α β} {k : α} {v : β}
    (hn : (keys d).Nodup) (hm : (k, v) ∈ d) : dget d k = some v := by
  induction d with
  | nil => simp at hm
  | cons e es ih =>
    rw [keys_cons, List.nodup_cons] at hn
    rcases List.mem_cons.mp hm with h | h
    · subst h
      simp [dget_cons]
    · have hk : k ∈ keys es := List.mem_map.mpr ⟨(k, v), h, rfl⟩
      have hne : ¬ e.1 = k := fun hek => hn.1 (hek ▸ hk)
      rw [dget_cons, if_neg hne]
      exact ih hn.2 h

theorem dget_map_values (d : Dict α β) (t : β → γ) (k : α) :
    dget (d.map (fun e => (e.1, t e.2))) k = (dget d k).map t := by
  induction d with
  | nil => simp
  | cons e es ih =>
    by_cases he : e.1 = k
    · simp [dget_cons, he]
    · simp [dget_cons, he, ih]

omit [DecidableEq α] in
theorem keys_map_values (d : Dict α β) (t : β → γ) :
    keys (d.map (fun e => (e.1, t e.2))) = keys d := by
  induction d with
  | nil => rfl
  | cons e es ih => simp [keys_cons, ih]

/-! ### First-occurrence order -/

/-- The distinct elements of a list in order of first occurrence, skipping
elements already `seen`.  This is the key order of a Python dict built by
repeated insertion. -/
def firstOcc : List α → List α → List α
  | [], _ => []
  | x :: xs, seen => if x ∈ seen then firstOcc xs seen else x :: firstOcc xs (x :: seen)

theorem firstOcc_congr (xs : List α) {s t : List α}
    (h : ∀ a, a ∈ s ↔ a ∈ t) : firstOcc xs s = firstOcc xs t := by
  induction xs generalizing s t with
  | nil => rfl
  | cons x xs ih =>
    by_cases hx : x ∈ s
    · simp [firstOcc, hx, (h x).mp hx, ih h]
    · have hx' : x ∉ t := fun hc => hx ((h x).mpr hc)
      simp only [firstOcc, hx, hx', if_false]
      rw [ih (s := x :: s) (t := x :: t) (by intro a; simp [h a])]

theorem mem_firstOcc (a : α) : ∀ (xs s : List α),
    a ∈ firstOcc xs s ↔ a ∈ xs ∧ a ∉ s := by
  intro xs
  induction xs with
  | nil => simp [firstOcc]
  | cons x xs ih =>
    intro s
    by_cases hx : x ∈ s
    · rw [firstOcc, if_pos hx, ih]
      simp only [List.mem_cons]
      constructor
      · rintro ⟨h1, h2⟩
        exact ⟨Or.inr h1, h2⟩
      · rintro ⟨h1 | h1, h2⟩
        · exact absurd (h1.symm ▸ hx) h2
        · exact ⟨h1, h2⟩
    · rw [firstOcc, if_neg hx]
      simp only [List.mem_cons, ih]
      constructor
      · rintro (rfl | ⟨h1, h2⟩)
        · exact ⟨Or.inl rfl, hx⟩
        · exact ⟨Or.inr h1, fun hs => h2 (Or.inr hs)⟩
      · rintro ⟨h1 | h1, h2⟩
        · exact Or.inl h1
        · by_cases hax : a = x
          · exact Or.inl hax
          · exact Or.inr ⟨h1, fun hc => by
              rcases hc with h | h
              · exact hax h
              · exact h2 h⟩

theorem firstOcc_nodup : ∀ (xs s : List α), (firstOcc xs s).Nodup := by
  intro xs
  induction xs with
  | nil => intro s; simp [firstOcc]
  | cons x xs ih =>
    intro s
    by_cases hx : x ∈ s
    · rw [firstOcc, if_pos hx]; exact ih s
    · rw [firstOcc, if_neg hx]
      refine List.nodup_cons.mpr ⟨?_, ih (x :: s)⟩
      intro hc
      exact ((mem_firstOcc x xs (x :: s)).mp hc).2 (List.mem_cons_self x s)

theorem firstOcc_ne_nil {xs : List α} (h : xs ≠ []) : firstOcc xs [] ≠ [] := by
  cases xs with
  | nil => exact absurd rfl h
  | cons x xs => simp [firstOcc]

/-! ### Characterization of the grouping loop -/

/-- The year bucket a record is filed under. -/
def yearOf (r : TransactionRecord) : Nat := r.timestamp.year

/-- The month bucket a record is filed under. -/
def monthOf (r : TransactionRecord) : Nat := r.timestamp.month

/-- The months, with multiplicity and in input order, of the records of a
given year. -/
def monthsOf (data : List TransactionRecord) (y : Nat) : List Nat :=
  (data.filter (fun r => decide (yearOf r = y))).map monthOf

/-- The month keys stored under a year key, in dict order. -/
def ykeys (g : Dict Nat (Dict Nat γ)) (y : Nat) : List Nat :=
  keys ((dget g y).getD [])

theorem monthsOf_cons (r : TransactionRecord) (data : List TransactionRecord) (y : Nat) :
    monthsOf (r :: data) y =
      if yearOf r = y then monthOf r :: monthsOf data y else monthsOf data y := by
  by_cases h : yearOf r = y <;> simp [monthsOf, List.filter_cons, h]

theorem keys_addRecord (g : Dict Nat (Dict Nat (List TransactionRecord)))
    (r : TransactionRecord) :
    keys (addRecord g r) =
      if yearOf r ∈ keys g then keys g else keys g ++ [yearOf r] := by
  by_cases hc : dcontains g r.timestamp.year
  · have hy : r.timestamp.year ∈ keys g := (dcontains_iff _ _).mp hc
    simp [addRecord, yearOf, hc, keys_dset, hy]
  · have hy : r.timestamp.year ∉ keys g :=
      fun hm => by simp [(dcontains_iff _ _).mpr hm] at hc
    simp [addRecord, yearOf, hc, keys_dset, hy]

theorem dget_addRecord_ne (g : Dict Nat (Dict Nat (List TransactionRecord)))
    (r : TransactionRecord) {y : Nat} (h : yearOf r ≠ y) :
    dget (addRecord g r) y = dget g y := by
  have h' : y ≠ r.timestamp.year := fun hc => h hc.symm
  by_cases hc : dcontains g r.timestamp.year
  · simp only [addRecord, hc, if_true]
    rw [dget_dset_ne _ _ h']
  · simp only [addRecord, hc, Bool.false_eq_true, if_false]
    rw [dget_dset_ne _ _ h', dget_dset_ne _ _ h']

theorem ykeys_addRecord_self (g : Dict Nat (Dict Nat (List TransactionRecord)))
    (r : TransactionRecord) :
    ykeys (addRecord g r) (yearOf r) =
      if monthOf r ∈ ykeys g (yearOf r) then ykeys g (yearOf r)
      else ykeys g (yearOf r) ++ [monthOf r] := by
  have hmonths : (dget (if dcontains g r.timestamp.year then g
      else dset g r.timestamp.year []) r.timestamp.year).getD [] =
      (dget g r.timestamp.year).getD [] := by
    by_cases hc : dcontains g r.timestamp.year
    · rw [if_pos hc]
    · rw [if_neg hc, dget_dset_self, dget_eq_none g _ hc]
      rfl
  unfold ykeys
  simp only [addRecord, yearOf, monthOf]
  rw [dget_dset_self, Option.getD_some, hmonths]
  set months := (dget g r.timestamp.year).getD [] with hm
  by_cases hcm : dcontains months r.timestamp.month
  · have hmem : r.timestamp.month ∈ keys months := (dcontains_iff _ _).mp hcm
    simp [hcm, keys_dset, hmem, ← hm]
  · have hmem : r.timestamp.month ∉ keys months :=
      fun hmm => by simp [(dcontains_iff _ _).mpr hmm] at hcm
    simp [hcm, keys_dset, hmem, ← hm]

theorem keys_foldl_addRecord (data : List TransactionRecord) :
    ∀ g, keys (data.foldl addRecord g) =
      keys g ++ firstOcc (data.map yearOf) (keys g) := by
  induction data with
  | nil => intro g; simp [firstOcc]
  | cons r data ih =>
    intro g
    rw [List.foldl_cons, ih, List.map_cons, firstOcc]
    by_cases hy : yearOf r ∈ keys g
    · rw [if_pos hy, keys_addRecord, if_pos hy]
    · rw [if_neg hy, keys_addRecord, if_neg hy,
        firstOcc_congr (data.map yearOf)
          (s := keys g ++ [yearOf r]) (t := yearOf r :: keys g)
          (by intro a; simp [or_comm]),
        List.append_assoc]
      rfl

theorem ykeys_foldl_addRecord (data : List TransactionRecord) (y : Nat) :
    ∀ g, ykeys (data.foldl addRecord g) y =
      ykeys g y ++ firstOcc (monthsOf data y) (ykeys g y) := by
  induction data with
  | nil => intro g; simp [monthsOf, firstOcc]
  | cons r data ih =>
    intro g
    rw [List.foldl_cons, ih, monthsOf_cons]
    by_cases hy : yearOf r = y
    · rw [if_pos hy, firstOcc]
      by_cases hm : monthOf r ∈ ykeys g y
      · rw [if_pos hm, ← hy, ykeys_addRecord_self, hy, if_pos hm]
      · rw [if_neg hm, ← hy, ykeys_addRecord_self, hy, if_neg hm,
          firstOcc_congr (monthsOf data y)
            (s := ykeys g y ++ [monthOf r]) (t := monthOf r :: ykeys g y)
            (by intro a; simp [or_comm]),
          List.append_assoc]
        rfl
    · have hug : ykeys (addRecord g r) y = ykeys g y := by
        unfold ykeys
        rw [dget_addRecord_ne g r hy]
      rw [if_neg hy, hug]

/-! ### Characterization of the stats-rebuild loop -/

theorem dcontains_eq_false_iff (d : Dict α β) (k : α) :
    dcontains d k = false ↔ k ∉ keys d := by
  rw [← dcontains_iff]
  cases dcontains d k <;> simp

/-- The entry-wise effect of the second loop on one year's months. -/
def statsOfMonths (ms : Dict Nat (List TransactionRecord)) : Dict Nat MonthStats :=
  ms.map (fun me => (me.1, mkMonthStats me.2))

theorem foldl_statsStep_inner (y : Nat) :
    ∀ (ms : Dict Nat (List TransactionRecord)) (mt : Dict Nat (Dict Nat MonthStats))
      (acc : Dict Nat MonthStats),
      ¬ dcontains mt y = true → (keys ms).Nodup →
      (∀ m ∈ keys ms, m ∉ keys acc) →
      ms.foldl (statsStep y) (mt ++ [(y, acc)]) =
        mt ++ [(y, acc ++ statsOfMonths ms)] := by
  intro ms
  induction ms with
  | nil =>
    intro mt acc _ _ _
    simp [statsOfMonths]
  | cons me ms ih =>
    intro mt acc hmt hnd hdisj
    rw [keys_cons, List.nodup_cons] at hnd
    rw [List.foldl_cons]
    have hgety : dget (mt ++ [(y, acc)]) y = some acc := by
      rw [dget_append_of_none _ (dget_eq_none mt y hmt)]
      simp [dget_cons]
    have hcy : dcontains (mt ++ [(y, acc)]) y = true := by
      simp [dcontains, hgety]
    have hmtf : dcontains mt y = false := by
      cases h : dcontains mt y
      · rfl
      · exact absurd h hmt
    have hacc : dcontains acc me.1 = false :=
      (dcontains_eq_false_iff acc me.1).mpr (hdisj me.1 (List.mem_cons_self _ _))
    have hstep : statsStep y (mt ++ [(y, acc)]) me =
        mt ++ [(y, acc ++ [(me.1, mkMonthStats me.2)])] := by
      unfold statsStep
      simp only [hcy, if_true, hgety, Option.getD_some]
      rw [dset_append_of_not_contains acc me.1 _ hacc, dset_shadow mt [] y acc _ hmtf]
    rw [hstep,
      ih mt (acc ++ [(me.1, mkMonthStats me.2)]) hmt hnd.2
        (by
          intro m hm
          rw [keys_append]
          simp only [List.mem_append, keys_cons, keys_nil, List.mem_singleton]
          rintro (hma | hma)
          · exact hdisj m (List.mem_cons_of_mem _ hm) hma
          · exact hnd.1 (hma ▸ hm)),
      List.append_assoc]
    rfl

theorem foldl_statsStep_year (y : Nat) (ms : Dict Nat (List TransactionRecord))
    (mt : Dict Nat (Dict Nat MonthStats))
    (hmt : ¬ dcontains mt y = true) (hne : ms ≠ []) (hnd : (keys ms).Nodup) :
    ms.foldl (statsStep y) mt = mt ++ [(y, statsOfMonths ms)] := by
  cases ms with
  | nil => exact absurd rfl hne
  | cons me ms =>
    rw [keys_cons, List.nodup_cons] at hnd
    have hmtf : dcontains mt y = false := by
      cases h : dcontains mt y
      · rfl
      · exact absurd h hmt
    rw [List.foldl_cons]
    have hstep : statsStep y mt me = mt ++ [(y, [(me.1, mkMonthStats me.2)])] := by
      unfold statsStep
      simp only [hmt, hmtf, Bool.false_eq_true, if_false,
        dset_append_of_not_contains mt y ([] : Dict Nat MonthStats) hmtf]
      rw [dget_append_of_none _ (dget_eq_none mt y hmt)]
      rw [dset_shadow mt [] y ([] : Dict Nat MonthStats) _ hmtf]
      simp [dget_cons]
    rw [hstep,
      foldl_statsStep_inner y ms mt [(me.1, mkMonthStats me.2)] hmt hnd.2
        (by
          intro m hm
          simp only [keys_cons, keys_nil, List.mem_singleton]
          intro hma
          exact hnd.1 (hma ▸ hm))]
    rfl

theorem foldl_statsFold (gd : Dict Nat (Dict Nat (List TransactionRecord))) :
    ∀ mt : Dict Nat (Dict Nat MonthStats),
      (∀ y ∈ keys gd, y ∉ keys mt) → (keys gd).Nodup →
      (∀ e ∈ gd, e.2 ≠ [] ∧ (keys e.2).Nodup) →
      gd.foldl (fun mt e => e.2.foldl (statsStep e.1) mt) mt =
        mt ++ gd.map (fun e => (e.1, statsOfMonths e.2)) := by
  induction gd with
  | nil =>
    intro mt _ _ _
    simp
  | cons e gd ih =>
    intro mt hdisj hnd hval
    rw [keys_cons, List.nodup_cons] at hnd
    rw [List.foldl_cons,
      foldl_statsStep_year e.1 e.2 mt
        (by
          intro hc
          exact hdisj e.1 (by simp) ((dcontains_iff mt e.1).mp hc))
        (hval e (List.mem_cons_self _ _)).1
        (hval e (List.mem_cons_self _ _)).2,
      ih (mt ++ [(e.1, statsOfMonths e.2)])
        (by
          intro y hy
          rw [keys_append]
          simp only [List.mem_append, keys_cons, keys_nil, List.mem_singleton]
          rintro (hma | hma)
          · exact hdisj y (List.mem_cons_of_mem _ hy) hma
          · exact hnd.1 (hma ▸ hy))
        hnd.2
        (fun e' he' => hval e' (List.mem_cons_of_mem _ he')),
      List.append_assoc]
    rfl

/-- The second loop of `get_monthly_transactions` maps `mkMonthStats` over
the grouped records, entry by entry. -/
theorem get_monthly_transactions_eq (data : List TransactionRecord) :
    get_monthly_transactions data =
      (grouped_dates data).map (fun e => (e.1, statsOfMonths e.2)) := by
  have hkeys : keys (grouped_dates data) = firstOcc (data.map yearOf) [] := by
    have h := keys_foldl_addRecord data []
    simpa [grouped_dates] using h
  have hnd : (keys (grouped_dates data)).Nodup := by
    rw [hkeys]
    exact firstOcc_nodup _ _
  have hykeys : ∀ y, ykeys (grouped_dates data) y = firstOcc (monthsOf data y) [] := by
    intro y
    have h := ykeys_foldl_addRecord data y []
    simpa [grouped_dates, ykeys] using h
  unfold get_monthly_transactions
  apply foldl_statsFold (grouped_dates data) [] (by simp) hnd
  intro e he
  have hkey : e.1 ∈ keys (grouped_dates data) := List.mem_map.mpr ⟨e, he, rfl⟩
  have hget : dget (grouped_dates data) e.1 = some e.2 :=
    dget_of_mem_nodup hnd (by rcases e with ⟨k, v⟩; exact he)
  have hinner : keys e.2 = firstOcc (monthsOf data e.1) [] := by
    have h := hykeys e.1
    unfold ykeys at h
    rw [hget, Option.getD_some] at h
    exact h
  constructor
  · intro hnil
    have hmem : e.1 ∈ data.map yearOf := by
      have := (mem_firstOcc e.1 (data.map yearOf) []).mp (hkeys ▸ hkey)
      exact this.1
    rcases List.mem_map.mp hmem with ⟨r, hr, hry⟩
    have hmo : monthsOf data e.1 ≠ [] := by
      have hrf : r ∈ data.filter (fun r => decide (yearOf r = e.1)) :=
        List.mem_filter.mpr ⟨hr, by simp [hry]⟩
      have : monthOf r ∈ monthsOf data e.1 := List.mem_map.mpr ⟨r, hrf, rfl⟩
      exact List.ne_nil_of_mem this
    have : keys e.2 ≠ [] := hinner ▸ firstOcc_ne_nil hmo
    rw [hnil] at this
    exact this rfl
  · rw [hinner]
    exact firstOcc_nodup _ _

/-- The year keys of the monthly breakdown: the distinct years of the
input, in order of first occurrence. -/
theorem keys_get_monthly_transactions (data : List TransactionRecord) :
    keys (get_monthly_transactions data) = firstOcc (data.map yearOf) [] := by
  rw [get_monthly_transactions_eq, keys_map_values]
  have h := keys_foldl_addRecord data []
  simpa [grouped_dates] using h

theorem ykeys_gmt_eq_grouped (data : List TransactionRecord) (y : Nat) :
    ykeys (get_monthly_transactions data) y = ykeys (grouped_dates data) y := by
  unfold ykeys
  rw [get_monthly_transactions_eq, dget_map_values]
  cases hg : dget (grouped_dates data) y with
  | none => simp
  | some ms => simp [statsOfMonths, keys_map_values]

/-- The month keys under a year of the monthly breakdown: the distinct
months of that year's records, in order of first occurrence. -/
theorem ykeys_get_monthly_transactions (data : List TransactionRecord) (y : Nat) :
    ykeys (get_monthly_transactions data) y = firstOcc (monthsOf data y) [] := by
  rw [ykeys_gmt_eq_grouped]
  have h := ykeys_foldl_addRecord data y []
  simpa [grouped_dates, ykeys] using h

/-! ### Notification dispatcher lemmas -/

theorem send_message_attempts_bound (oracle : Nat → Option String) (message : String)
    (max_tries : Nat) :
    ∀ (d tries : Nat), max_tries + 1 - tries ≤ d → tries ≤ max_tries + 1 →
      (send_message oracle message tries max_tries).2.length + tries ≤ max_tries + 2 := by
  intro d
  induction d with
  | zero =>
    intro tries hd ht
    have heq : tries = max_tries + 1 := by omega
    subst heq
    unfold send_message
    cases oracle (max_tries + 1) with
    | some m => simp; omega
    | none =>
      rw [dif_neg (by omega)]
      simp
      omega
  | succ d ih =>
    intro tries hd ht
    unfold send_message
    cases ho : oracle tries with
    | some m => simp; omega
    | none =>
      by_cases hle : tries ≤ max_tries
      · rw [dif_pos hle]
        have h2 := ih (tries + 1) (by omega) (by omega)
        simp only [List.length_cons]
        omega
      · rw [dif_neg hle]
        simp
        omega

theorem send_message_first_success (oracle : Nat → Option String) (message : String)
    (max_tries : Nat) {k : Nat} {mid : String} :
    ∀ (d tries : Nat), k - tries ≤ d → tries ≤ k → k ≤ max_tries + 1 →
      (∀ j, tries ≤ j → j < k → oracle j = none) → oracle k = some mid →
      send_message oracle message tries max_tries =
        (some mid, List.range' tries (k + 1 - tries)) := by
  intro d
  induction d with
  | zero =>
    intro tries hd ht _ _ hsucc
    have heq : tries = k := by omega
    subst heq
    unfold send_message
    rw [hsucc]
    have h1 : tries + 1 - tries = 1 := by omega
    rw [h1]
    rfl
  | succ d ih =>
    intro tries hd ht hk hfail hsucc
    by_cases htk : tries = k
    · subst htk
      unfold send_message
      rw [hsucc]
      have h1 : tries + 1 - tries = 1 := by omega
      rw [h1]
      rfl
    · have htk' : tries < k := lt_of_le_of_ne ht htk
      unfold send_message
      rw [hfail tries le_rfl htk', dif_pos (by omega),
        ih (tries + 1) (by omega) (by omega) hk
          (fun j hj1 hj2 => hfail j (by omega) hj2) hsucc]
      have h1 : k + 1 - tries = (k - tries) + 1 := by omega
      have h2 : k + 1 - (tries + 1) = k - tries := by omega
      rw [h1, h2]
      rfl

theorem send_message_all_fail (oracle : Nat → Option String) (message : String)
    (max_tries : Nat) (hfail : ∀ j, oracle j = none) :
    ∀ (d tries : Nat), max_tries + 1 - tries ≤ d → tries ≤ max_tries + 1 →
      send_message oracle message tries max_tries =
        (none, List.range' tries (max_tries + 2 - tries)) := by
  intro d
  induction d with
  | zero =>
    intro tries hd ht
    have heq : tries = max_tries + 1 := by omega
    subst heq
    unfold send_message
    rw [hfail, dif_neg (by omega)]
    have h1 : max_tries + 1 + 1 - (max_tries + 1) = 1 := by omega
    rw [h1]
    rfl
  | succ d ih =>
    intro tries hd ht
    by_cases htm : tries ≤ max_tries
    · unfold send_message
      rw [hfail, dif_pos htm, ih (tries + 1) (by omega) (by omega)]
      have h1 : max_tries + 2 - tries = (max_tries + 1 - tries) + 1 := by omega
      have h2 : max_tries + 2 - (tries + 1) = max_tries + 1 - tries := by omega
      rw [h1, h2]
      rfl
    · have heq : tries = max_tries + 1 := by omega
      subst heq
      unfold send_message
      rw [hfail, dif_neg (by omega)]
      have h1 : max_tries + 1 + 1 - (max_tries + 1) = 1 := by omega
      rw [h1]
      rfl

/-! ### Header detection facts -/

/-- Because every `csv.reader` field is a `str`, the header heuristic
accepts every row: the treat-first-row-as-data branch is unreachable. -/
theorem looks_like_headers_const_true (row : List String) :
    looks_like_headers (row.map csvCell) = true := by
  induction row with
  | nil => rfl
  | cons s row ih => simp [looks_like_headers, csvCell, isinstance_str]

/-! ### Concrete fixtures used by witnesses and counterexamples -/

/-- A credit record in January 2023. -/
def recA : TransactionRecord := ⟨"123", ⟨2023, 1, 15, 0, 0, 0⟩, 10, "t1"⟩

/-- A debit record in March 2024. -/
def recB : TransactionRecord := ⟨"123", ⟨2024, 3, 2, 0, 0, 0⟩, -3, "t2"⟩

/-- A record in month 1 of 2023, arriving before `recM7`. -/
def recM1 : TransactionRecord := ⟨"123", ⟨2023, 1, 5, 0, 0, 0⟩, 10, "m1"⟩

/-- A record in month 7 of 2023, arriving after `recM1`. -/
def recM7 : TransactionRecord := ⟨"123", ⟨2023, 7, 6, 0, 0, 0⟩, 20, "m7"⟩

/-- A record with amount 10.004. -/
def recP : TransactionRecord := ⟨"123", ⟨2023, 1, 15, 0, 0, 0⟩, 10004/1000, "p1"⟩

/-- A record with amount -5.00. -/
def recN : TransactionRecord := ⟨"123", ⟨2023, 1, 16, 0, 0, 0⟩, -5, "n1"⟩

/-- An environment where the transactions insert raises. -/
def envTxFail : DBEnv := ⟨false, true, false, true⟩

/-- An environment where the storage layer behaves. -/
def envOk : DBEnv := ⟨false, false, false, false⟩

/-- An empty durable state. -/
def db0 : DB := ⟨[], []⟩

/-- An SQS endpoint that accepts on the first attempt. -/
def okOracle : Nat → Option String := fun _ => some "mid-1"

/-- An SQS endpoint that fails every attempt except the second. -/
def oracleSucc2 : Nat → Option String := fun k => if k = 2 then some "msg-2" else none

/-- The claim-side ordering predicate: strictly descending month keys. -/
def sortedDescBool : List Nat → Bool
  | [] => true
  | [_] => true
  | a :: b :: t => decide (b < a) && sortedDescBool (b :: t)

/-! ### Claim theorems -/

/-- C10: calling the report builder with a `None` (unresolved) account
number returns the empty report dict `{}`; no totals, averages or monthly
breakdown are attached. -/
theorem empty_report_for_unresolved_account (data : List TransactionRecord) :
    get_account_report data none = AccountReport.empty := rfl

/-- C6: the source code classifies the all-numeric first row
`["123", "2023-01-01 00:00:00", "10.00", "tx1"]` as a header and excludes
it — `looks_like_headers` tests `isinstance(value, str)`, which is true
for every CSV field — whereas the claim (and the stated intent of the
code, whose treat-first-row-as-data branch is unreachable) requires a row
with numeric fields to be kept as data. -/
theorem numeric_first_row_treated_as_header :
    looks_like_headers
      (["123", "2023-01-01 00:00:00", "10.00", "tx1"].map csvCell) = true := rfl

/-- C4 counterexample: on amounts `[10.004, -5.00]` the source returns
the exact sum `5.004`, while the claim requires the rounded value
`5.00`; the two differ. -/
theorem total_balance_not_rounded :
    get_total_balance [recP, recN] = 5004 / 1000 ∧
    round2 (([recP, recN].map TransactionRecord.amount).sum) = 5 ∧
    (5004 / 1000 : ℚ) ≠ 5 := by
  refine ⟨?_, ?_, by norm_num⟩
  · norm_num [get_total_balance, recP, recN]
  · norm_num [round2, roundHalfEven, recP, recN, round_eq]

/-- C4 amended: `totalBalance` is the exact, unrounded sum of the
amounts (the source applies no rounding to the sum), and `0.0` for an
empty batch. -/
theorem total_balance_is_exact_sum (data : List TransactionRecord) :
    get_total_balance data = (data.map TransactionRecord.amount).sum ∧
    get_total_balance [] = 0 := by
  constructor
  · unfold get_total_balance
    by_cases h : data.length < 1
    · have hnil : data = [] := List.eq_nil_of_length_eq_zero (by omega)
      subst hnil
      simp
    · rw [if_neg h]
  · rfl

/-- C5: the debit (resp. credit) average is the mean of the strictly
negative (resp. strictly positive) amounts rounded to two decimals, and
`0.0` when that subset is empty. -/
theorem avg_amount_by_type_spec (data : List TransactionRecord) :
    (get_avg_amount_by_type data (some "debit") =
      if (data.map TransactionRecord.amount).filter (fun a => decide (a < 0)) = [] then 0
      else round2 (mean ((data.map TransactionRecord.amount).filter (fun a => decide (a < 0))))) ∧
    (get_avg_amount_by_type data (some "credit") =
      if (data.map TransactionRecord.amount).filter (fun a => decide (0 < a)) = [] then 0
      else round2 (mean ((data.map TransactionRecord.amount).filter (fun a => decide (0 < a))))) := by
  have hdc : ¬ (("debit" : String) = "credit") := by decide
  have hcd : ¬ (("credit" : String) = "debit") := by decide
  constructor
  · by_cases hne : (data.map TransactionRecord.amount).filter (fun a => decide (a < 0)) = []
    · simp [get_avg_amount_by_type, hne, hdc]
    · have hpos : 0 < ((data.map TransactionRecord.amount).filter (fun a => decide (a < 0))).length :=
        List.length_pos.mpr hne
      simp [get_avg_amount_by_type, hne, hpos]
  · by_cases hne : (data.map TransactionRecord.amount).filter (fun a => decide (0 < a)) = []
    · simp [get_avg_amount_by_type, hne, hcd]
    · have hpos : 0 < ((data.map TransactionRecord.amount).filter (fun a => decide (0 < a))).length :=
        List.length_pos.mpr hne
      simp [get_avg_amount_by_type, hne, hpos, hcd]

/-- C2: the monthly breakdown contains the year of every input record as
a key — multi-year batches keep all of their years; none is dropped or
collapsed. -/
theorem monthly_breakdown_contains_every_year (data : List TransactionRecord)
    (r : TransactionRecord) (hr : r ∈ data) :
    yearOf r ∈ keys (get_monthly_transactions data) := by
  rw [keys_get_monthly_transactions]
  exact (mem_firstOcc (yearOf r) (data.map yearOf) []).mpr
    ⟨List.mem_map.mpr ⟨r, hr, rfl⟩, List.not_mem_nil _⟩

/-- Witness for C2: both 2023 and 2024 appear as year keys of a two-year
batch. -/
theorem monthly_breakdown_contains_every_year_witness :
    (recA ∈ [recA, recB] ∧ recB ∈ [recA, recB]) ∧
    yearOf recA ∈ keys (get_monthly_transactions [recA, recB]) ∧
    yearOf recB ∈ keys (get_monthly_transactions [recA, recB]) :=
  ⟨⟨List.mem_cons_self _ _, List.mem_cons_of_mem _ (List.mem_cons_self _ _)⟩,
    monthly_breakdown_contains_every_year [recA, recB] recA (List.mem_cons_self _ _),
    monthly_breakdown_contains_every_year [recA, recB] recB
      (List.mem_cons_of_mem _ (List.mem_cons_self _ _))⟩

/-- C3 counterexample: a year whose records arrive with months 1 then 7
ends up with month keys `[1, 7]` — insertion order, not the descending
`[7, 1]` the claim requires. -/
theorem months_not_sorted_descending :
    ykeys (get_monthly_transactions [recM1, recM7]) 2023 = [1, 7] ∧
    sortedDescBool [1, 7] = false :=
  ⟨by decide, by decide⟩

/-- C3 amended: within a year, the month keys appear in order of first
occurrence of each month in the input (Python dict insertion order), not
sorted descending. -/
theorem months_in_first_occurrence_order (data : List TransactionRecord) (y : Nat) :
    ykeys (get_monthly_transactions data) y = firstOcc (monthsOf data y) [] :=
  ykeys_get_monthly_transactions data y

/-- C1: if either of the two inserts performed by `persist_to_db` fails,
the result is falsy (Python `False` or `None`) and the durable state is
unchanged; and on every path the durable state is either untouched or
extended with the transaction rows and the report row together — never
one collection without the other. -/
theorem persist_to_db_atomic (env : DBEnv) (db : DB) (acct : Option String)
    (txs : List TransactionRecord) (rep : AccountReport) :
    ((env.txInsertFails = true ∨ env.reportInsertFails = true) →
      isTruthy (persist_to_db env db acct txs rep).1 = false ∧
      (persist_to_db env db acct txs rep).2 = db) ∧
    ((persist_to_db env db acct txs rep).2 = db ∨
      ∃ ti ri, (persist_to_db env db acct txs rep).2 =
        { transactions := db.transactions ++ ti
          reports := db.reports ++ [ri] }) := by
  by_cases h0 : env.beginFails
  · simp [persist_to_db, h0, isTruthy]
  · cases rep with
    | empty => simp [persist_to_db, h0, isTruthy]
    | report a b c d e =>
      by_cases h1 : env.txInsertFails
      · by_cases h3 : env.commitInactiveRaises <;>
          simp [persist_to_db, h0, h1, h3, isTruthy]
      · by_cases h2 : env.reportInsertFails
        · by_cases h3 : env.commitInactiveRaises <;>
            simp [persist_to_db, h0, h1, h2, h3, isTruthy]
        · simp only [persist_to_db, h0, h1, h2, Bool.false_eq_true, if_false]
          refine ⟨by simp, Or.inr ⟨_, _, rfl⟩⟩

/-- Witness for C1: with the transactions insert failing, the result is
falsy and the empty database is unchanged. -/
theorem persist_to_db_atomic_witness :
    (envTxFail.txInsertFails = true ∨ envTxFail.reportInsertFails = true) ∧
    isTruthy (persist_to_db envTxFail db0 (some "424248018") [recA]
      (get_account_report [recA] (some "424248018"))).1 = false ∧
    (persist_to_db envTxFail db0 (some "424248018") [recA]
      (get_account_report [recA] (some "424248018"))).2 = db0 :=
  ⟨Or.inl rfl,
    ((persist_to_db_atomic envTxFail db0 (some "424248018") [recA]
      (get_account_report [recA] (some "424248018"))).1 (Or.inl rfl)).1,
    ((persist_to_db_atomic envTxFail db0 (some "424248018") [recA]
      (get_account_report [recA] (some "424248018"))).1 (Or.inl rfl)).2⟩

/-- C7: starting from the initial attempt, the dispatcher makes at most
`max_tries` additional attempts (at most `max_tries + 1` in total); a
first success at attempt `k` within the budget returns the provider
message id having attempted exactly `1, ..., k`; when every attempt
fails it returns `none` — a failure indicator, not an exception — having
attempted exactly `1, ..., max_tries + 1`.  Termination is inherent: the
function is total. -/
theorem send_message_bounded_retry (oracle : Nat → Option String)
    (message : String) (max_tries : Nat) :
    ((send_message oracle message 1 max_tries).2.length ≤ max_tries + 1) ∧
    (∀ k mid, 1 ≤ k → k ≤ max_tries + 1 →
      (∀ j, 1 ≤ j → j < k → oracle j = none) → oracle k = some mid →
      send_message oracle message 1 max_tries = (some mid, List.range' 1 k)) ∧
    ((∀ j, oracle j = none) →
      send_message oracle message 1 max_tries = (none, List.range' 1 (max_tries + 1))) := by
  refine ⟨?_, ?_, ?_⟩
  · have h := send_message_attempts_bound oracle message max_tries max_tries 1
      (by omega) (by omega)
    omega
  · intro k mid h1 h2 hf hs
    have h := send_message_first_success oracle message max_tries (k - 1) 1
      (by omega) h1 h2 hf hs
    have hk : k + 1 - 1 = k := by omega
    rw [hk] at h
    exact h
  · intro hf
    have h := send_message_all_fail oracle message max_tries hf max_tries 1
      (by omega) (by omega)
    have hk : max_tries + 2 - 1 = max_tries + 1 := by omega
    rw [hk] at h
    exact h

/-- Witness for C7: with failures before a success on attempt 2, the
dispatcher returns the provider id `msg-2` after exactly attempts 1 and
2. -/
theorem send_message_bounded_retry_witness :
    ((1 : Nat) ≤ 2 ∧ 2 ≤ 3 + 1 ∧
      (∀ j, 1 ≤ j → j < 2 → oracleSucc2 j = none) ∧ oracleSucc2 2 = some "msg-2") ∧
    send_message oracleSucc2 "body" 1 3 = (some "msg-2", List.range' 1 2) := by
  have hf : ∀ j, 1 ≤ j → j < 2 → oracleSucc2 j = none := by
    intro j h1 h2
    have hj : j = 1 := by omega
    subst hj
    rfl
  exact ⟨⟨by omega, by omega, hf, rfl⟩,
    (send_message_bounded_retry oracleSucc2 "body" 3).2.1 2 "msg-2"
      (by omega) (by omega) hf rfl⟩

/-- C8 counterexample: with the transactions insert failing, persistence
fails (falsy result) yet the invocation still dispatches the
notification, obtains a message id, and returns normally without a
failure signal. -/
theorem notification_sent_despite_persist_failure :
    isTruthy (transaction_processor true [recA, recB]
      "424248018_transactions_report.csv" envTxFail db0 okOracle).persisted = false ∧
    (transaction_processor true [recA, recB]
      "424248018_transactions_report.csv" envTxFail db0 okOracle).messageId = some "mid-1" ∧
    (transaction_processor true [recA, recB]
      "424248018_transactions_report.csv" envTxFail db0 okOracle).effects =
      [.persistAttempt, .sendAttempt] ∧
    (transaction_processor true [recA, recB]
      "424248018_transactions_report.csv" envTxFail db0 okOracle).ret = .ok () := by
  have hacct : get_account_number "424248018_transactions_report.csv" =
      some "424248018" := by decide
  refine ⟨?_, ?_, ?_, ?_⟩ <;>
    simp [transaction_processor, hacct, persist_to_db, envTxFail, db0, okOracle,
      isTruthy, send_message, get_account_report]

/-- C8 amended: the dispatch step is not guarded by persistence success:
whenever the file is readable and non-empty, even if persistence fails
the invocation still performs the persist and send steps in order and
returns normally (`None`), with no failure signal. -/
theorem dispatch_runs_despite_persist_failure (rows : List TransactionRecord)
    (key : String) (env : DBEnv) (db : DB) (oracle : Nat → Option String)
    (r0 : TransactionRecord) (rest : List TransactionRecord)
    (hrows : rows = r0 :: rest)
    (hfail : isTruthy (transaction_processor true rows key env db
      oracle).persisted = false) :
    (transaction_processor true rows key env db oracle).effects =
      [.persistAttempt, .sendAttempt] ∧
    (transaction_processor true rows key env db oracle).ret = .ok () := by
  subst hrows
  exact ⟨rfl, rfl⟩

/-- Witness for C8 amended, at the same failing-persistence input as the
counterexample. -/
theorem dispatch_runs_despite_persist_failure_witness :
    (([recA, recB] : List TransactionRecord) = recA :: [recB]) ∧
    isTruthy (transaction_processor true [recA, recB]
      "424248018_transactions_report.csv" envTxFail db0 okOracle).persisted = false ∧
    (transaction_processor true [recA, recB] "424248018_transactions_report.csv"
      envTxFail db0 okOracle).effects = [.persistAttempt, .sendAttempt] ∧
    (transaction_processor true [recA, recB] "424248018_transactions_report.csv"
      envTxFail db0 okOracle).ret = .ok () := by
  have hacct : get_account_number "424248018_transactions_report.csv" =
      some "424248018" := by decide
  have hfail : isTruthy (transaction_processor true [recA, recB]
      "424248018_transactions_report.csv" envTxFail db0 okOracle).persisted = false := by
    simp [transaction_processor, hacct, persist_to_db, envTxFail, db0, isTruthy,
      get_account_report]
  exact ⟨rfl, hfail,
    (dispatch_runs_despite_persist_failure [recA, recB]
      "424248018_transactions_report.csv" envTxFail db0 okOracle recA [recB] rfl hfail).1,
    (dispatch_runs_despite_persist_failure [recA, recB]
      "424248018_transactions_report.csv" envTxFail db0 okOracle recA [recB] rfl hfail).2⟩

/-- C9 counterexample: with an object key that does not split into three
segments, the handler does not abort before I/O: it still attempts
persistence and still sends the notification. -/
theorem io_attempted_despite_unresolvable_account :
    get_account_number "bad-name.csv" = none ∧
    (transaction_processor true [recA, recB] "bad-name.csv" envOk db0 okOracle).effects =
      [.persistAttempt, .sendAttempt] ∧
    (transaction_processor true [recA, recB] "bad-name.csv" envOk db0 okOracle).messageId =
      some "mid-1" := by
  have hacct : get_account_number "bad-name.csv" = none := by decide
  refine ⟨hacct, ?_, ?_⟩ <;>
    simp [transaction_processor, hacct, okOracle, send_message]

/-- C9 amended: there is no fail-fast guard: whenever the file is
readable and non-empty, the handler attempts persistence and sends the
notification even when the data batch is empty or the account number is
unresolvable. -/
theorem no_fail_fast_guard (rows : List TransactionRecord) (key : String)
    (env : DBEnv) (db : DB) (oracle : Nat → Option String)
    (r0 : TransactionRecord) (rest : List TransactionRecord)
    (hrows : rows = r0 :: rest)
    (_hbad : get_account_number key = none ∨ rest = []) :
    (transaction_processor true rows key env db oracle).effects =
      [.persistAttempt, .sendAttempt] := by
  subst hrows
  rfl

/-- Witness for C9 amended: an unresolvable key with a non-empty file
whose data batch is empty — both cancellation conditions at once — still
performs both I/O steps. -/
theorem no_fail_fast_guard_witness :
    (([recA] : List TransactionRecord) = recA :: []) ∧
    (get_account_number "bad-name.csv" = none ∨ ([] : List TransactionRecord) = []) ∧
    (transaction_processor true [recA] "bad-name.csv" envOk db0 okOracle).effects =
      [.persistAttempt, .sendAttempt] :=
  ⟨rfl, Or.inl (by decide),
    no_fail_fast_guard [recA] "bad-name.csv" envOk db0 okOracle recA [] rfl
      (Or.inl (by decide))⟩

end TxProc
